import Mathlib

/-!
Shallow embedding of `auth/crypto.go` from the firebase-admin-go snippet:
the HTTP key cache (`httpKeySource`), the key/certificate parsing helpers,
the signature verifier and the service-account signer.

External libraries that the Go file merely calls (PEM decoding, X.509
certificate parsing, JSON unmarshalling, SHA-256 and the RSA PKCS#1v1.5
primitives) are modelled as components of a `Libs` record: the embedding is
parametric in them, mirroring the spec's decision to treat them as external
collaborators.  The string handling of `findMaxAge`, the integer parsing of
`strconv.ParseInt` and the `base64.RawURLEncoding` codec are implemented
concretely, since the claims speak about their exact behaviour.

Go runtime panics (nil-pointer dereference, out-of-range indexing) are
modelled by `Option`: a result of `none` is a crash, `some r` is a normal
return of `r`.  Go's `(T, error)` returns are modelled by `Except`.
Time instants and durations are `Int` nanoseconds, as in Go's
`time.Time`/`time.Duration`.
-/

namespace Auth

/-- A Go `error` value, identified by its message. -/
abbrev GoError := String

/-- `rsa.PublicKey`: modulus and public exponent. -/
structure RsaPublicKey where
  n : Nat
  e : Nat
deriving DecidableEq, Repr

/-- `rsa.PrivateKey`: modulus and private exponent (the part signing uses). -/
structure RsaPrivateKey where
  n : Nat
  d : Nat
deriving DecidableEq, Repr

/-- `publicKey`: a parsed RSA public key along with its unique key ID. -/
structure PublicKey where
  kid : String
  key : RsaPublicKey
deriving DecidableEq, Repr

/-- One second, in the `Int` nanoseconds that model `time.Duration`. -/
def nanosPerSecond : Int := 1000000000

/-- The mutable fields of `httpKeySource` that `Keys`/`refreshKeys` touch:
the cached snapshot and its expiry instant. -/
structure HttpKeySourceState where
  cachedKeys : List PublicKey
  expiryTime : Int
deriving DecidableEq, Repr

/-- The public key found inside an X.509 certificate: either RSA material or
something else (`cert.PublicKey.(*rsa.PublicKey)` type assertion target). -/
inductive CertKey where
  | rsa (k : RsaPublicKey)
  | other
deriving DecidableEq, Repr

/-- The part of an `x509.Certificate` the code reads. -/
structure Certificate where
  publicKey : CertKey
deriving DecidableEq, Repr

/-- The part of a `pem.Block` the code reads. -/
structure PemBlock where
  bytes : List Nat
deriving DecidableEq, Repr

/-- The external library collaborators the Go file calls.  The embedding is
parametric in them; theorems hold for every instantiation. -/
structure Libs where
  /-- `pem.Decode`: `none` models the nil block returned on absent/invalid PEM. -/
  pemDecode : List Nat → Option PemBlock
  /-- `x509.ParseCertificate`. -/
  parseCertificate : List Nat → Except GoError Certificate
  /-- `json.Unmarshal` into `map[string]string`, the decoded object given as
  an association list in iteration order. -/
  jsonUnmarshalStrMap : List Nat → Except GoError (List (String × String))
  /-- SHA-256 digest of a byte string. -/
  sha256 : List Nat → List Nat
  /-- `rsa.VerifyPKCS1v15 key SHA256 digest sig`: `true` iff the signature
  checks out (the Go call returns nil exactly in that case). -/
  rsaVerifyPKCS1v15 : RsaPublicKey → List Nat → List Nat → Bool
  /-- `rsa.SignPKCS1v15` over a digest (deterministic for PKCS#1v1.5). -/
  rsaSignPKCS1v15 : RsaPrivateKey → List Nat → List Nat

/-- Go `[]byte(s)` for the ASCII strings the claims use: the code points of
the string's characters. -/
def strBytes (s : String) : List Nat := s.data.map Char.toNat

/-! ### `strconv.ParseInt(s, 10, 64)` -/

/-- Accumulate decimal digits; any non-digit character is a syntax error. -/
def parseDigitsAux : List Char → Nat → Option Nat
  | [], acc => some acc
  | c :: rest, acc =>
    if c.isDigit then parseDigitsAux rest (acc * 10 + (c.toNat - 48))
    else none

/-- `strconv.ParseInt(s, 10, 64)` on the characters of `s`: optional sign,
decimal digits, 64-bit range check. -/
def goParseInt64 (cs : List Char) : Except GoError Int :=
  let signDigits : Bool × List Char :=
    match cs with
    | '-' :: rest => (true, rest)
    | '+' :: rest => (false, rest)
    | _ => (false, cs)
  match signDigits.2 with
  | [] => Except.error "strconv.ParseInt: invalid syntax"
  | ds =>
    match parseDigitsAux ds 0 with
    | none => Except.error "strconv.ParseInt: invalid syntax"
    | some m =>
      let v : Int := if signDigits.1 then -(m : Int) else (m : Int)
      if v < -(2 ^ 63) ∨ 2 ^ 63 - 1 < v then
        Except.error "strconv.ParseInt: value out of range"
      else Except.ok v

/-! ### `findMaxAge` -/

/-- The characters after the first `=`, modelling
`value[strings.Index(value, "=")+1:]`. -/
def dropThroughEq : List Char → List Char
  | [] => []
  | '=' :: rest => rest
  | _ :: rest => dropThroughEq rest

/-- The whitespace characters `strings.TrimSpace` removes (the ASCII ones,
which are the only ones a `Cache-Control` value can contain). -/
def isGoSpace (c : Char) : Bool :=
  c = ' ' ∨ c = '\t' ∨ c = '\n' ∨ c = '\x0b' ∨ c = '\x0c' ∨ c = '\r'

/-- `strings.TrimSpace` on a character list. -/
def goTrimSpace (cs : List Char) : List Char :=
  ((cs.dropWhile isGoSpace).reverse.dropWhile isGoSpace).reverse

/-- `strings.Split(s, ",")` on a character list: the comma-separated
pieces, empty pieces included. -/
def goSplitCommaAux : List Char → List Char → List (List Char)
  | [], acc => [acc.reverse]
  | ',' :: rest, acc => acc.reverse :: goSplitCommaAux rest []
  | c :: rest, acc => goSplitCommaAux rest (c :: acc)

/-- `strings.HasPrefix cs pre` on character lists. -/
def startsWithChars : List Char → List Char → Bool
  | _, [] => true
  | [], _ :: _ => false
  | c :: cs, p :: ps => c = p && startsWithChars cs ps

/-- Reduction of an unbounded integer into the int64 range, modelling Go's
wrapping 64-bit arithmetic. -/
def int64Wrap (x : Int) : Int := (x + 2 ^ 63) % 2 ^ 64 - 2 ^ 63

/-- The loop body of `findMaxAge` over the comma-separated directives.
On a `max-age=` directive it parses the integer and returns the duration
`time.Duration(seconds) * time.Second` in nanoseconds — an int64
multiplication, which silently wraps when `seconds * 10^9` exceeds the
int64 range; otherwise it continues, and a missing directive is a hard
error. -/
def findMaxAgeLoop : List (List Char) → Except GoError Int
  | [] => Except.error "Could not find expiry time from HTTP headers"
  | v :: rest =>
    let value := goTrimSpace v
    if startsWithChars value ("max-age=".data) then
      match goParseInt64 (dropThroughEq value) with
      | Except.error e => Except.error e
      | Except.ok seconds => Except.ok (int64Wrap (seconds * nanosPerSecond))
    else findMaxAgeLoop rest

/-- `findMaxAge`, taking the `Cache-Control` header value of the response.
Returns the freshness duration in nanoseconds. -/
def findMaxAge (cacheControl : String) : Except GoError Int :=
  findMaxAgeLoop (goSplitCommaAux cacheControl.data [])

/-! ### `base64.RawURLEncoding` -/

/-- The base64url alphabet character for a 6-bit value. -/
def b64Char (v : Nat) : Char :=
  if v < 26 then Char.ofNat (65 + v)
  else if v < 52 then Char.ofNat (97 + (v - 26))
  else if v < 62 then Char.ofNat (48 + (v - 52))
  else if v = 62 then '-'
  else '_'

/-- The 6-bit value of a base64url alphabet character, `none` for characters
outside the alphabet. -/
def b64Val (c : Char) : Option Nat :=
  if 'A' ≤ c ∧ c ≤ 'Z' then some (c.toNat - 65)
  else if 'a' ≤ c ∧ c ≤ 'z' then some (c.toNat - 97 + 26)
  else if '0' ≤ c ∧ c ≤ '9' then some (c.toNat - 48 + 52)
  else if c = '-' then some 62
  else if c = '_' then some 63
  else none

/-- `base64.RawURLEncoding.EncodeToString` on a byte list (no padding). -/
def base64RawUrlEncode : List Nat → List Char
  | [] => []
  | [a] => [b64Char (a / 4), b64Char (a % 4 * 16)]
  | [a, b] => [b64Char (a / 4), b64Char (a % 4 * 16 + b / 16), b64Char (b % 16 * 4)]
  | a :: b :: c :: rest =>
    b64Char (a / 4) :: b64Char (a % 4 * 16 + b / 16) ::
      b64Char (b % 16 * 4 + c / 64) :: b64Char (c % 64) :: base64RawUrlEncode rest

/-- `base64.RawURLEncoding.DecodeString` on a character list: `none` models
the `CorruptInputError` returned for characters outside the alphabet or an
input length congruent to 1 modulo 4. -/
def base64RawUrlDecode : List Char → Option (List Nat)
  | [] => some []
  | [c1, c2] =>
    match b64Val c1, b64Val c2 with
    | some v1, some v2 => some [v1 * 4 + v2 / 16]
    | _, _ => none
  | [c1, c2, c3] =>
    match b64Val c1, b64Val c2, b64Val c3 with
    | some v1, some v2, some v3 =>
      some [v1 * 4 + v2 / 16, v2 % 16 * 16 + v3 / 4]
    | _, _, _ => none
  | c1 :: c2 :: c3 :: c4 :: rest =>
    match b64Val c1, b64Val c2, b64Val c3, b64Val c4, base64RawUrlDecode rest with
    | some v1, some v2, some v3, some v4, some bs =>
      some ((v1 * 4 + v2 / 16) :: (v2 % 16 * 16 + v3 / 4) :: (v3 % 4 * 64 + v4) :: bs)
    | _, _, _, _, _ => none
  | _ => none

/-! ### `parsePublicKey` / `parsePublicKeys` -/

/-- `parsePublicKey(kid, key)`.  The Go code ignores `pem.Decode`'s nil
result and immediately reads `block.Bytes`; when the decode fails the nil
pointer dereference is a runtime panic, modelled by `none`. -/
def parsePublicKey (L : Libs) (kid : String) (key : List Nat) :
    Option (Except GoError PublicKey) :=
  match L.pemDecode key with
  | none => none
  | some block =>
    some (match L.parseCertificate block.bytes with
      | Except.error e => Except.error e
      | Except.ok cert =>
        match cert.publicKey with
        | CertKey.rsa pk => Except.ok ⟨kid, pk⟩
        | CertKey.other => Except.error "Certificate is not a RSA key")

/-- The `for kid, key := range m` loop of `parsePublicKeys`: parse each
entry, aborting on the first failure. -/
def parsePublicKeysLoop (L : Libs) : List (String × String) →
    Option (Except GoError (List PublicKey))
  | [] => some (Except.ok [])
  | (kid, key) :: rest =>
    match parsePublicKey L kid (strBytes key) with
    | none => none
    | some (Except.error e) => some (Except.error e)
    | some (Except.ok pk) =>
      match parsePublicKeysLoop L rest with
      | none => none
      | some (Except.error e) => some (Except.error e)
      | some (Except.ok pks) => some (Except.ok (pk :: pks))

/-- `parsePublicKeys(keys)`: unmarshal the JSON object, then parse every
entry. -/
def parsePublicKeys (L : Libs) (keys : List Nat) :
    Option (Except GoError (List PublicKey)) :=
  match L.jsonUnmarshalStrMap keys with
  | Except.error e => some (Except.error e)
  | Except.ok m => parsePublicKeysLoop L m

/-! ### `httpKeySource` -/

/-- The outcome of the request-construction / network / body-read stages of
a refresh, which the embedding takes as an input. -/
inductive FetchResult where
  | reqError (e : GoError)
  | doError (e : GoError)
  | readError (e : GoError)
  | ok (cacheControl : String) (body : List Nat)
deriving DecidableEq, Repr

/-- `hasExpired`: `k.Clock.Now().After(k.ExpiryTime)` — strictly after. -/
def hasExpired (st : HttpKeySourceState) (now : Int) : Bool :=
  st.expiryTime < now

/-- `refreshKeys`: clear the snapshot, then run the fetch, parse the body
and the `max-age`, and install the new snapshot only when everything
succeeded.  `now` is the clock reading during the call. -/
def refreshKeys (L : Libs) (st : HttpKeySourceState) (now : Int)
    (fr : FetchResult) : Option (Except GoError Unit × HttpKeySourceState) :=
  let cleared : HttpKeySourceState := { st with cachedKeys := [] }
  match fr with
  | FetchResult.reqError e => some (Except.error e, cleared)
  | FetchResult.doError e => some (Except.error e, cleared)
  | FetchResult.readError e => some (Except.error e, cleared)
  | FetchResult.ok cacheControl body =>
    match parsePublicKeys L body with
    | none => none
    | some (Except.error e) => some (Except.error e, cleared)
    | some (Except.ok newKeys) =>
      match findMaxAge cacheControl with
      | Except.error e => some (Except.error e, cleared)
      | Except.ok maxAge =>
        some (Except.ok (), { cachedKeys := newKeys, expiryTime := now + maxAge })

/-- `Keys`: refresh when the snapshot is empty or expired; return the error
only when the refresh failed and the snapshot is empty afterwards.  The
`Bool` component records whether a refresh was performed during the call. -/
def keys (L : Libs) (st : HttpKeySourceState) (now : Int) (fr : FetchResult) :
    Option (Except GoError (List PublicKey) × HttpKeySourceState × Bool) :=
  if st.cachedKeys.length = 0 ∨ hasExpired st now then
    match refreshKeys L st now fr with
    | none => none
    | some (Except.error e, st1) =>
      if st1.cachedKeys.length = 0 then some (Except.error e, st1, true)
      else some (Except.ok st1.cachedKeys, st1, true)
    | some (Except.ok _, st1) => some (Except.ok st1.cachedKeys, st1, true)
  else some (Except.ok st.cachedKeys, st, false)

/-! ### `verifySignature` -/

/-- `verifySignature(parts, k)`: read `parts[0]`, `parts[1]`, `parts[2]`
(each an out-of-range panic, modelled by `none`, when absent), rebuild the
signing input, base64url-decode the signature and check it with RSA
PKCS#1v1.5 over the SHA-256 digest. -/
def verifySignature (L : Libs) (parts : List String) (k : PublicKey) :
    Option (Except GoError Unit) :=
  match parts.get? 0, parts.get? 1, parts.get? 2 with
  | some p0, some p1, some p2 =>
    let content := p0 ++ "." ++ p1
    some (match base64RawUrlDecode p2.data with
      | none => Except.error "illegal base64 data"
      | some signature =>
        if L.rsaVerifyPKCS1v15 k.key (L.sha256 (strBytes content)) signature
        then Except.ok ()
        else Except.error "crypto/rsa: verification error")
  | _, _, _ => none

/-! ### `serviceAcctSigner` -/

/-- `serviceAcctSigner`: an identity string and an optional private key
(`none` models a nil `*rsa.PrivateKey`). -/
structure ServiceAcctSigner where
  email : String
  pk : Option RsaPrivateKey
deriving DecidableEq, Repr

/-- `serviceAcctSigner.Email`: the configured identity, or a configuration
error when it is unset. -/
def ServiceAcctSigner.Email (s : ServiceAcctSigner) : Except GoError String :=
  if s.email = "" then Except.error "service account email not available"
  else Except.ok s.email

/-- `serviceAcctSigner.Sign`: a configuration error when no private key is
held, otherwise the RSA PKCS#1v1.5 signature over the SHA-256 digest of the
content. -/
def ServiceAcctSigner.Sign (L : Libs) (s : ServiceAcctSigner) (ss : List Nat) :
    Except GoError (List Nat) :=
  match s.pk with
  | none => Except.error "private key not available"
  | some k => Except.ok (L.rsaSignPKCS1v15 k (L.sha256 ss))

/-! ### A small concrete instantiation of the external libraries

Used only to evaluate the embedding at concrete inputs (witnesses and
counterexamples).  PEM blocks are byte strings starting with `P`; the
certificate parser knows two certificates (`Prsa` with a tiny RSA key,
`Pec` with a non-RSA key); the JSON unmarshaller knows a few documents by
name; the hash is a toy digest into one value below 33; and the RSA
primitives are textbook RSA modulo 33 with public exponent 3 and private
exponent 7. -/

def toyPemDecode (bs : List Nat) : Option PemBlock :=
  match bs with
  | 80 :: rest => some ⟨80 :: rest⟩
  | _ => none

def toyParseCertificate (bs : List Nat) : Except GoError Certificate :=
  if bs = strBytes "Prsa" then Except.ok ⟨CertKey.rsa ⟨33, 3⟩⟩
  else if bs = strBytes "Pec" then Except.ok ⟨CertKey.other⟩
  else Except.error "x509: malformed certificate"

def toyJsonUnmarshal (bs : List Nat) : Except GoError (List (String × String)) :=
  if bs = strBytes "emptyObjectDoc" then Except.ok []
  else if bs = strBytes "oneRsaKeyDoc" then Except.ok [("k1", "Prsa")]
  else if bs = strBytes "oneEcKeyDoc" then Except.ok [("k1", "Pec")]
  else Except.error "invalid character looking for beginning of value"

def toySha256 (bs : List Nat) : List Nat :=
  [bs.foldl (fun a x => (a + x) % 33) 0]

def toyRsaVerify (k : RsaPublicKey) (digest sig : List Nat) : Bool :=
  match digest, sig with
  | [m], [s] => s ^ k.e % k.n == m
  | _, _ => false

def toyRsaSign (k : RsaPrivateKey) (digest : List Nat) : List Nat :=
  match digest with
  | [m] => [m ^ k.d % k.n]
  | _ => []

def toyLibs : Libs :=
  ⟨toyPemDecode, toyParseCertificate, toyJsonUnmarshal, toySha256,
    toyRsaVerify, toyRsaSign⟩

/-- The toy RSA public key parsed out of the `Prsa` certificate. -/
def toyPub : RsaPublicKey := ⟨33, 3⟩

/-- The toy RSA private key matching `toyPub`. -/
def toyPriv : RsaPrivateKey := ⟨33, 7⟩

/-! ### Round trip of the base64url codec -/

theorem b64Val_b64Char_fin : ∀ v : Fin 64, b64Val (b64Char v.val) = some v.val := by
  decide

theorem b64Val_b64Char {v : Nat} (h : v < 64) : b64Val (b64Char v) = some v :=
  b64Val_b64Char_fin ⟨v, h⟩

theorem base64_roundtrip : ∀ l : List Nat, (∀ x ∈ l, x < 256) →
    base64RawUrlDecode (base64RawUrlEncode l) = some l
  | [], _ => rfl
  | [a], h => by
    have ha : a < 256 := h a (by simp)
    simp only [base64RawUrlEncode, base64RawUrlDecode,
      b64Val_b64Char (show a / 4 < 64 by omega),
      b64Val_b64Char (show a % 4 * 16 < 64 by omega),
      Option.some.injEq, List.cons.injEq, and_true]
    omega
  | [a, b], h => by
    have ha : a < 256 := h a (by simp)
    have hb : b < 256 := h b (by simp)
    simp only [base64RawUrlEncode, base64RawUrlDecode,
      b64Val_b64Char (show a / 4 < 64 by omega),
      b64Val_b64Char (show a % 4 * 16 + b / 16 < 64 by omega),
      b64Val_b64Char (show b % 16 * 4 < 64 by omega),
      Option.some.injEq, List.cons.injEq, and_true]
    constructor <;> omega
  | a :: b :: c :: rest, h => by
    have ha : a < 256 := h a (by simp)
    have hb : b < 256 := h b (by simp)
    have hc : c < 256 := h c (by simp)
    have ih := base64_roundtrip rest (fun x hx => h x (by simp [hx]))
    simp only [base64RawUrlEncode, base64RawUrlDecode,
      b64Val_b64Char (show a / 4 < 64 by omega),
      b64Val_b64Char (show a % 4 * 16 + b / 16 < 64 by omega),
      b64Val_b64Char (show b % 16 * 4 + c / 64 < 64 by omega),
      b64Val_b64Char (show c % 64 < 64 by omega),
      ih, Option.some.injEq, List.cons.injEq]
    refine ⟨by omega, by omega, by omega, trivial⟩

/-! ### Helper lemmas -/

/-- A failed refresh always leaves the snapshot cleared: `refreshKeys` nils
the cache first and only reassigns it on full success. -/
theorem refreshKeys_error_clears (L : Libs) (st : HttpKeySourceState) (now : Int)
    (fr : FetchResult) (e : GoError) (st1 : HttpKeySourceState)
    (h : refreshKeys L st now fr = some (Except.error e, st1)) :
    st1 = { st with cachedKeys := [] } := by
  cases fr with
  | reqError e1 =>
    simp only [refreshKeys, Option.some.injEq, Prod.mk.injEq,
      Except.error.injEq] at h
    exact h.2.symm
  | doError e1 =>
    simp only [refreshKeys, Option.some.injEq, Prod.mk.injEq,
      Except.error.injEq] at h
    exact h.2.symm
  | readError e1 =>
    simp only [refreshKeys, Option.some.injEq, Prod.mk.injEq,
      Except.error.injEq] at h
    exact h.2.symm
  | ok cc body =>
    simp only [refreshKeys] at h
    rcases hp : parsePublicKeys L body with _ | r
    · rw [hp] at h
      exact absurd h (by simp)
    · rw [hp] at h
      rcases r with e1 | ks
      · simp only [Option.some.injEq, Prod.mk.injEq, Except.error.injEq] at h
        exact h.2.symm
      · rcases hm : findMaxAge cc with e1 | d
        · rw [hm] at h
          simp only [Option.some.injEq, Prod.mk.injEq, Except.error.injEq] at h
          exact h.2.symm
        · rw [hm] at h
          simp at h

/-- Unfolding of `verifySignature` on a list with at least three elements. -/
theorem verifySignature_cons (L : Libs) (p0 p1 p2 : String) (rest : List String)
    (k : PublicKey) :
    verifySignature L (p0 :: p1 :: p2 :: rest) k =
      some (match base64RawUrlDecode p2.data with
        | none => Except.error "illegal base64 data"
        | some signature =>
          if L.rsaVerifyPKCS1v15 k.key (L.sha256 (strBytes (p0 ++ "." ++ p1)))
              signature
          then Except.ok ()
          else Except.error "crypto/rsa: verification error") := rfl

/-! ### The claims -/

/-- C1: whenever a `Keys` call runs a refresh and the refresh fails — at
request construction, network fetch, body read, JSON parse, X.509/key-type
rejection of any entry, or missing `max-age` — the snapshot ends empty and
`Keys` returns that error, regardless of what was cached before; no subset
of the new keys is installed. -/
theorem keys_refresh_failure_all_or_nothing (L : Libs) (st : HttpKeySourceState)
    (now : Int) (fr : FetchResult) (e : GoError) (st1 : HttpKeySourceState)
    (hstale : st.cachedKeys.length = 0 ∨ hasExpired st now = true)
    (hfail : refreshKeys L st now fr = some (Except.error e, st1)) :
    st1.cachedKeys = [] ∧ keys L st now fr = some (Except.error e, st1, true) := by
  have hclear := refreshKeys_error_clears L st now fr e st1 hfail
  have hempty : st1.cachedKeys = [] := by rw [hclear]
  refine ⟨hempty, ?_⟩
  simp only [keys, if_pos hstale, hfail]
  rw [if_pos (by rw [hempty]; rfl)]

/-- Witness for C1: a source with a previously cached non-empty snapshot,
now expired, whose fetch fails with a network error. -/
theorem keys_refresh_failure_all_or_nothing_witness :
    (HttpKeySourceState.mk [] 100).cachedKeys = [] ∧
    keys toyLibs ⟨[⟨"k1", toyPub⟩], 100⟩ 101 (FetchResult.doError "boom")
      = some (Except.error "boom", ⟨[], 100⟩, true) :=
  keys_refresh_failure_all_or_nothing toyLibs ⟨[⟨"k1", toyPub⟩], 100⟩ 101
    (FetchResult.doError "boom") "boom" ⟨[], 100⟩ (Or.inr rfl) rfl

/-- C2, counterexample: with a non-empty snapshot and the clock reading
exactly equal to the expiry instant, `Keys` performs no refresh (the flag is
`false` and the state is untouched), because `hasExpired` uses a strict
`After` comparison — contradicting the claim that a call made exactly at the
expiry instant triggers a refresh. -/
theorem keys_at_expiry_instant_no_refresh :
    keys toyLibs ⟨[⟨"k1", toyPub⟩], 100⟩ 100 (FetchResult.doError "boom")
      = some (Except.ok [⟨"k1", toyPub⟩], ⟨[⟨"k1", toyPub⟩], 100⟩, false) := rfl

/-- C2, amended: a `Keys` call performs a refresh iff the cached snapshot is
empty or the expiry instant is strictly before the current clock reading; a
call made exactly at the expiry instant with a non-empty snapshot does not
refresh. -/
theorem keys_refresh_iff_strictly_expired (L : Libs) (st : HttpKeySourceState)
    (now : Int) (fr : FetchResult) (res : Except GoError (List PublicKey))
    (st1 : HttpKeySourceState) (r : Bool)
    (h : keys L st now fr = some (res, st1, r)) :
    r = true ↔ (st.cachedKeys.length = 0 ∨ st.expiryTime < now) := by
  by_cases hc : st.cachedKeys.length = 0 ∨ hasExpired st now = true
  · have hc1 : st.cachedKeys.length = 0 ∨ st.expiryTime < now := by
      simpa only [hasExpired, decide_eq_true_eq] using hc
    simp only [keys, if_pos hc] at h
    split at h
    · exact absurd h (by simp)
    · split at h
      · simp only [Option.some.injEq, Prod.mk.injEq] at h
        rw [← h.2.2]
        simpa using hc1
      · simp only [Option.some.injEq, Prod.mk.injEq] at h
        rw [← h.2.2]
        simpa using hc1
    · simp only [Option.some.injEq, Prod.mk.injEq] at h
      rw [← h.2.2]
      simpa using hc1
  · have hc1 : ¬(st.cachedKeys.length = 0 ∨ st.expiryTime < now) := by
      simpa only [hasExpired, decide_eq_true_eq] using hc
    simp only [keys, if_neg hc] at h
    simp only [Option.some.injEq, Prod.mk.injEq] at h
    rw [← h.2.2]
    simpa using hc1

/-- Witness for the amended C2: an empty cache refreshes (flag `true`). -/
theorem keys_refresh_iff_strictly_expired_witness :
    (true = true) ↔
      ((HttpKeySourceState.mk [] 0).cachedKeys.length = 0 ∨
        (HttpKeySourceState.mk [] 0).expiryTime < 0) :=
  keys_refresh_iff_strictly_expired toyLibs ⟨[], 0⟩ 0 (FetchResult.doError "x")
    (Except.error "x") ⟨[], 0⟩ true rfl

/-- C3: on bytes holding no valid PEM block the Go code does not return a
format error — `pem.Decode`'s nil result is dereferenced (`block.Bytes`),
a runtime panic, modelled by `none`; a valid PEM block whose certificate
holds a non-RSA key does produce the key-type error. -/
theorem parsePublicKey_invalid_pem_panics :
    parsePublicKey toyLibs "kid1" (strBytes "not a pem") = none ∧
    parsePublicKey toyLibs "kid1" (strBytes "Pec")
      = some (Except.error "Certificate is not a RSA key") := ⟨rfl, rfl⟩

/-- C4, counterexample: the well-formed header `max-age=10000000000` is
accepted, but `time.Duration(10^10) * time.Second` wraps int64 to a
negative duration (≈ −268 years), so the refresh does not set the expiry
to the refresh time plus `S` seconds — the installed snapshot is already
expired, and the very next call (here 1ns later, far before the claimed
expiry) performs a refresh instead of serving the cache with zero
fetches. -/
theorem refresh_large_max_age_wraps_expiry :
    refreshKeys toyLibs ⟨[], 0⟩ 0
        (FetchResult.ok "max-age=10000000000" (strBytes "oneRsaKeyDoc"))
      = some (Except.ok (), ⟨[⟨"k1", toyPub⟩], -8446744073709551616⟩) ∧
    (-8446744073709551616 : Int) ≠ 0 + 10000000000 * nanosPerSecond ∧
    keys toyLibs ⟨[⟨"k1", toyPub⟩], -8446744073709551616⟩ 1
        (FetchResult.doError "boom")
      = some (Except.error "boom", ⟨[], -8446744073709551616⟩, true) :=
  ⟨rfl, by decide, rfl⟩

/-- C4, amended: when every certificate of the key document parses and the
`Cache-Control` header yields `max-age=S` with `S * 10^9` nanoseconds
representable in int64 (the duration multiplication does not wrap), the
refresh installs all parsed keys and sets the expiry to the refresh-time
clock reading plus `S` seconds; any later `Keys` call strictly before that
expiry with the (non-empty) snapshot in place performs no refresh — hence
no network fetch — and returns the cached snapshot. -/
theorem refresh_success_sets_expiry_and_serves_cache (L : Libs)
    (st : HttpKeySourceState) (now : Int) (cc : String) (body : List Nat)
    (pks : List PublicKey) (S : Int)
    (hparse : parsePublicKeys L body = some (Except.ok pks))
    (hma : findMaxAge cc = Except.ok (int64Wrap (S * nanosPerSecond)))
    (hfit : int64Wrap (S * nanosPerSecond) = S * nanosPerSecond) :
    refreshKeys L st now (FetchResult.ok cc body)
      = some (Except.ok (), ⟨pks, now + S * nanosPerSecond⟩) ∧
    (∀ now1 fr1, pks ≠ [] → now1 < now + S * nanosPerSecond →
      keys L ⟨pks, now + S * nanosPerSecond⟩ now1 fr1
        = some (Except.ok pks, ⟨pks, now + S * nanosPerSecond⟩, false)) := by
  constructor
  · simp only [refreshKeys, hparse, hma, hfit]
  · intro now1 fr1 hne hlt
    have hcond : ¬(pks.length = 0 ∨
        hasExpired ⟨pks, now + S * nanosPerSecond⟩ now1 = true) := by
      simp only [hasExpired, decide_eq_true_eq, not_or, List.length_eq_zero]
      exact ⟨hne, by omega⟩
    simp only [keys, if_neg hcond]

/-- Witness for C4: a document with one RSA certificate and
`Cache-Control: max-age=300`; a later call 100ns after the refresh serves
the cache without refreshing. -/
theorem refresh_success_sets_expiry_and_serves_cache_witness :
    refreshKeys toyLibs ⟨[], 0⟩ 0
        (FetchResult.ok "max-age=300" (strBytes "oneRsaKeyDoc"))
      = some (Except.ok (), ⟨[⟨"k1", toyPub⟩], 0 + 300 * nanosPerSecond⟩) ∧
    keys toyLibs ⟨[⟨"k1", toyPub⟩], 0 + 300 * nanosPerSecond⟩ 100
        (FetchResult.doError "boom")
      = some (Except.ok [⟨"k1", toyPub⟩],
          ⟨[⟨"k1", toyPub⟩], 0 + 300 * nanosPerSecond⟩, false) := by
  have h := refresh_success_sets_expiry_and_serves_cache toyLibs ⟨[], 0⟩ 0
    "max-age=300" (strBytes "oneRsaKeyDoc") [⟨"k1", toyPub⟩] 300 rfl rfl rfl
  exact ⟨h.1, h.2 100 (FetchResult.doError "boom") (by simp)
    (by norm_num [nanosPerSecond])⟩

/-- C5: on a three-segment (or longer) parts list, `verifySignature` builds
the signing input `parts[0] ++ "." ++ parts[1]` and base64url-decodes
`parts[2]`: an invalid base64url third segment yields the decode error; a
decodable signature that fails RSA PKCS#1v1.5/SHA-256 verification over the
signing input yields the signature-invalid error; a signature that verifies
yields a nil error. -/
theorem verifySignature_decode_and_verify (L : Libs) (p0 p1 p2 : String)
    (rest : List String) (k : PublicKey) :
    (base64RawUrlDecode p2.data = none →
      verifySignature L (p0 :: p1 :: p2 :: rest) k
        = some (Except.error "illegal base64 data")) ∧
    (∀ sig, base64RawUrlDecode p2.data = some sig →
      L.rsaVerifyPKCS1v15 k.key (L.sha256 (strBytes (p0 ++ "." ++ p1))) sig
          = false →
      verifySignature L (p0 :: p1 :: p2 :: rest) k
        = some (Except.error "crypto/rsa: verification error")) ∧
    (∀ sig, base64RawUrlDecode p2.data = some sig →
      L.rsaVerifyPKCS1v15 k.key (L.sha256 (strBytes (p0 ++ "." ++ p1))) sig
          = true →
      verifySignature L (p0 :: p1 :: p2 :: rest) k = some (Except.ok ())) := by
  refine ⟨fun hd => ?_, fun sig hd hv => ?_, fun sig hd hv => ?_⟩ <;>
    rw [verifySignature_cons, hd] <;> simp [hv]

/-- Witness for C5: the three outcomes on concrete tokens — an invalid
base64url segment, a wrong signature, and the matching signature of the
signing input `ab.cd` under the toy key. -/
theorem verifySignature_decode_and_verify_witness :
    verifySignature toyLibs ["ab", "cd", "!"] ⟨"k1", toyPub⟩
      = some (Except.error "illegal base64 data") ∧
    verifySignature toyLibs ["ab", "cd", "AA"] ⟨"k1", toyPub⟩
      = some (Except.error "crypto/rsa: verification error") ∧
    verifySignature toyLibs ["ab", "cd", "Cw"] ⟨"k1", toyPub⟩
      = some (Except.ok ()) :=
  ⟨(verifySignature_decode_and_verify toyLibs "ab" "cd" "!" []
      ⟨"k1", toyPub⟩).1 rfl,
    (verifySignature_decode_and_verify toyLibs "ab" "cd" "AA" []
      ⟨"k1", toyPub⟩).2.1 [0] rfl rfl,
    (verifySignature_decode_and_verify toyLibs "ab" "cd" "Cw" []
      ⟨"k1", toyPub⟩).2.2 [11] rfl rfl⟩

/-- C6, counterexample: `strconv.ParseInt` accepts a negative `max-age`, so
a successful refresh under `Cache-Control: max-age=-1` installs a non-empty
snapshot whose expiry (one second before the refresh) is already past at
installation time — the snapshot is neither empty nor valid when installed. -/
theorem snapshot_installed_already_expired :
    refreshKeys toyLibs ⟨[], 0⟩ nanosPerSecond
        (FetchResult.ok "max-age=-1" (strBytes "oneRsaKeyDoc"))
      = some (Except.ok (), ⟨[⟨"k1", toyPub⟩], 0⟩) ∧
    hasExpired ⟨[⟨"k1", toyPub⟩], 0⟩ nanosPerSecond = true := by
  constructor
  · simp only [refreshKeys]
    norm_num [show parsePublicKeys toyLibs (strBytes "oneRsaKeyDoc")
        = some (Except.ok [⟨"k1", toyPub⟩]) from rfl,
      show findMaxAge "max-age=-1" = Except.ok (-1000000000) from rfl,
      nanosPerSecond]
  · rfl

/-- C6, amended: restricted to refreshes whose installed duration — the
int64-wrapped `time.Duration(seconds) * time.Second` that `findMaxAge`
returns — is nonnegative, the invariant holds: every installed snapshot is
either empty or non-expired at the clock reading of its installation.
(Both a negative accepted `max-age` and a large one whose int64 product
wraps negative escape the guard and break the original invariant.) -/
theorem snapshot_invariant_nonneg_max_age (L : Libs) (st : HttpKeySourceState)
    (now : Int) (fr : FetchResult) (res : Except GoError Unit)
    (st1 : HttpKeySourceState)
    (hrun : refreshKeys L st now fr = some (res, st1))
    (hnn : ∀ cc body, fr = FetchResult.ok cc body →
      ∀ d, findMaxAge cc = Except.ok d → 0 ≤ d) :
    st1.cachedKeys = [] ∨ hasExpired st1 now = false := by
  cases fr with
  | reqError e1 =>
    simp only [refreshKeys, Option.some.injEq, Prod.mk.injEq] at hrun
    rw [← hrun.2]
    exact Or.inl rfl
  | doError e1 =>
    simp only [refreshKeys, Option.some.injEq, Prod.mk.injEq] at hrun
    rw [← hrun.2]
    exact Or.inl rfl
  | readError e1 =>
    simp only [refreshKeys, Option.some.injEq, Prod.mk.injEq] at hrun
    rw [← hrun.2]
    exact Or.inl rfl
  | ok cc body =>
    simp only [refreshKeys] at hrun
    split at hrun
    · exact absurd hrun (by simp)
    · simp only [Option.some.injEq, Prod.mk.injEq] at hrun
      rw [← hrun.2]
      exact Or.inl rfl
    · split at hrun
      · simp only [Option.some.injEq, Prod.mk.injEq] at hrun
        rw [← hrun.2]
        exact Or.inl rfl
      · rename_i newKeys hparse maxAge hma
        have hd : 0 ≤ maxAge := hnn cc body rfl maxAge hma
        simp only [Option.some.injEq, Prod.mk.injEq] at hrun
        rw [← hrun.2]
        refine Or.inr ?_
        simp only [hasExpired, decide_eq_false_iff_not, not_lt]
        omega

/-- Witness for the amended C6: the `max-age=300` refresh of the witness
for C4, checked against the invariant. -/
theorem snapshot_invariant_nonneg_max_age_witness :
    (HttpKeySourceState.mk [⟨"k1", toyPub⟩] (0 + 300 * nanosPerSecond)).cachedKeys
        = [] ∨
    hasExpired ⟨[⟨"k1", toyPub⟩], 0 + 300 * nanosPerSecond⟩ 0 = false := by
  refine snapshot_invariant_nonneg_max_age toyLibs ⟨[], 0⟩ 0
    (FetchResult.ok "max-age=300" (strBytes "oneRsaKeyDoc")) (Except.ok ())
    ⟨[⟨"k1", toyPub⟩], 0 + 300 * nanosPerSecond⟩ rfl ?_
  intro cc body heq d hd
  injection heq with h1 h2
  rw [← h1] at hd
  rw [show findMaxAge "max-age=300" = Except.ok 300000000000 from rfl] at hd
  injection hd with h3
  omega

/-- C7: signing a content string with `serviceAcctSigner.Sign` and then
verifying, with the corresponding public key, a parts list whose signing
input equals that content and whose third segment is the base64url encoding
of the produced signature, succeeds (returns a nil error).  The
correspondence of the key pair enters as the PKCS#1v1.5 correctness of the
external RSA primitives on this signature. -/
theorem sign_then_verify_roundtrip (L : Libs) (s : ServiceAcctSigner)
    (pub : RsaPublicKey) (kid p0 p1 content : String) (sig : List Nat)
    (hcontent : p0 ++ "." ++ p1 = content)
    (_hsig : ServiceAcctSigner.Sign L s (strBytes content) = Except.ok sig)
    (hbytes : ∀ x ∈ sig, x < 256)
    (hpair : L.rsaVerifyPKCS1v15 pub (L.sha256 (strBytes content)) sig = true) :
    verifySignature L [p0, p1, String.mk (base64RawUrlEncode sig)] ⟨kid, pub⟩
      = some (Except.ok ()) := by
  rw [verifySignature_cons]
  rw [show (String.mk (base64RawUrlEncode sig)).data = base64RawUrlEncode sig
    from rfl]
  rw [base64_roundtrip sig hbytes, hcontent]
  simp [hpair]

/-- Witness for C7: the toy signer (private exponent 7 mod 33) signs
`ab.cd`; verification with the matching public key (exponent 3) succeeds. -/
theorem sign_then_verify_roundtrip_witness :
    verifySignature toyLibs
        ["ab", "cd", String.mk (base64RawUrlEncode [11])] ⟨"k1", toyPub⟩
      = some (Except.ok ()) :=
  sign_then_verify_roundtrip toyLibs ⟨"id@x", some toyPriv⟩ toyPub "k1"
    "ab" "cd" "ab.cd" [11] rfl rfl (by decide) rfl

/-- C8: `Email` returns the configured identity string iff it is non-empty
and the configuration error exactly when it is empty; `Sign` returns the
configuration error exactly when no private key is held, and otherwise the
RSA PKCS#1v1.5 signature over the SHA-256 digest of the content. -/
theorem signer_email_sign_spec (L : Libs) (s : ServiceAcctSigner)
    (content : List Nat) :
    (ServiceAcctSigner.Email s
        = Except.error "service account email not available" ↔ s.email = "") ∧
    (s.email ≠ "" → ServiceAcctSigner.Email s = Except.ok s.email) ∧
    (ServiceAcctSigner.Sign L s content
        = Except.error "private key not available" ↔ s.pk = none) ∧
    (∀ priv, s.pk = some priv →
      ServiceAcctSigner.Sign L s content
        = Except.ok (L.rsaSignPKCS1v15 priv (L.sha256 content))) := by
  refine ⟨?_, ?_, ?_, ?_⟩
  · unfold ServiceAcctSigner.Email
    split <;> simp_all
  · intro h
    unfold ServiceAcctSigner.Email
    rw [if_neg h]
  · unfold ServiceAcctSigner.Sign
    cases s.pk <;> simp
  · intro priv hp
    unfold ServiceAcctSigner.Sign
    rw [hp]

/-- Witness for C8: the four behaviours at concrete signers. -/
theorem signer_email_sign_spec_witness :
    ServiceAcctSigner.Email ⟨"a@b.c", some toyPriv⟩ = Except.ok "a@b.c" ∧
    ServiceAcctSigner.Email ⟨"", none⟩
      = Except.error "service account email not available" ∧
    ServiceAcctSigner.Sign toyLibs ⟨"", none⟩ [1]
      = Except.error "private key not available" ∧
    ServiceAcctSigner.Sign toyLibs ⟨"a@b.c", some toyPriv⟩ [1]
      = Except.ok (toyLibs.rsaSignPKCS1v15 toyPriv (toyLibs.sha256 [1])) :=
  ⟨(signer_email_sign_spec toyLibs ⟨"a@b.c", some toyPriv⟩ [1]).2.1 (by decide),
    (signer_email_sign_spec toyLibs ⟨"", none⟩ [1]).1.2 rfl,
    (signer_email_sign_spec toyLibs ⟨"", none⟩ [1]).2.2.1.2 rfl,
    (signer_email_sign_spec toyLibs ⟨"a@b.c", some toyPriv⟩ [1]).2.2.2
      toyPriv rfl⟩

/-- C9: `verifySignature` is only defined (no panic) on parts lists with at
least three elements — it indexes `parts[0]`, `parts[1]`, `parts[2]` with
no length check — and any segments beyond the first three are ignored. -/
theorem verifySignature_needs_three_segments (L : Libs) (parts : List String)
    (k : PublicKey) :
    ((verifySignature L parts k).isSome ↔ 3 ≤ parts.length) ∧
    (3 ≤ parts.length →
      verifySignature L parts k = verifySignature L (parts.take 3) k) := by
  match parts with
  | [] => exact ⟨by simp [verifySignature], by intro h; simp at h⟩
  | [p0] => exact ⟨by simp [verifySignature], by intro h; simp at h⟩
  | [p0, p1] => exact ⟨by simp [verifySignature], by intro h; simp at h⟩
  | p0 :: p1 :: p2 :: rest =>
    exact ⟨by constructor <;> intro <;> simp [verifySignature_cons, Nat.le_add_left],
      fun _ => rfl⟩

/-- Witness for C9: a four-segment token gives the same result as its first
three segments. -/
theorem verifySignature_needs_three_segments_witness :
    ((verifySignature toyLibs ["ab", "cd", "Cw", "xx"] ⟨"k1", toyPub⟩).isSome ↔
      3 ≤ (["ab", "cd", "Cw", "xx"] : List String).length) ∧
    verifySignature toyLibs ["ab", "cd", "Cw", "xx"] ⟨"k1", toyPub⟩
      = verifySignature toyLibs ((["ab", "cd", "Cw", "xx"] : List String).take 3)
          ⟨"k1", toyPub⟩ :=
  ⟨(verifySignature_needs_three_segments toyLibs ["ab", "cd", "Cw", "xx"]
      ⟨"k1", toyPub⟩).1,
    (verifySignature_needs_three_segments toyLibs ["ab", "cd", "Cw", "xx"]
      ⟨"k1", toyPub⟩).2 (by simp)⟩

/-- C10: when the fetched document decodes to the empty JSON object and the
response carries a valid `max-age`, a `Keys` call that refreshes succeeds,
returns the empty key list with no error, and records the expiry; since an
empty snapshot always triggers a refresh, every subsequent `Keys` call
performs a refresh again, regardless of the recorded expiry. -/
theorem keys_empty_object_refreshes_every_call (L : Libs)
    (st : HttpKeySourceState) (now : Int) (cc : String) (body : List Nat)
    (d : Int)
    (hstale : st.cachedKeys.length = 0 ∨ hasExpired st now = true)
    (hjson : L.jsonUnmarshalStrMap body = Except.ok [])
    (hma : findMaxAge cc = Except.ok d) :
    keys L st now (FetchResult.ok cc body)
      = some (Except.ok [], ⟨[], now + d⟩, true) ∧
    (∀ now1 fr1 res st1 r,
      keys L ⟨[], now + d⟩ now1 fr1 = some (res, st1, r) → r = true) := by
  constructor
  · simp only [keys, if_pos hstale, refreshKeys, parsePublicKeys, hjson,
      parsePublicKeysLoop, hma]
  · intro now1 fr1 res st1 r h
    have hempty : (HttpKeySourceState.mk [] (now + d)).cachedKeys.length = 0 ∨
        hasExpired ⟨[], now + d⟩ now1 = true := Or.inl rfl
    simp only [keys, if_pos hempty] at h
    split at h
    · exact absurd h (by simp)
    · split at h <;>
        (simp only [Option.some.injEq, Prod.mk.injEq] at h; exact h.2.2.symm)
    · simp only [Option.some.injEq, Prod.mk.injEq] at h
      exact h.2.2.symm

/-- Witness for C10: the empty document under `max-age=300`, followed by a
call well before the recorded expiry that still refreshes (and here fails,
leaving the empty cache). -/
theorem keys_empty_object_refreshes_every_call_witness :
    keys toyLibs ⟨[], 0⟩ 0
        (FetchResult.ok "max-age=300" (strBytes "emptyObjectDoc"))
      = some (Except.ok [], ⟨[], 0 + 300000000000⟩, true) ∧
    true = true := by
  have h := keys_empty_object_refreshes_every_call toyLibs ⟨[], 0⟩ 0
    "max-age=300" (strBytes "emptyObjectDoc") 300000000000 (Or.inl rfl) rfl rfl
  exact ⟨h.1, h.2 5 (FetchResult.doError "x") (Except.error "x")
    ⟨[], 0 + 300000000000⟩ true rfl⟩

end Auth
